import Mathlib

/-!
Verification of the x402-forge payment pipeline against its specification.

The JavaScript source is shallowly embedded: each class method becomes a
Lean function over explicit data, external collaborators (ledger lookups,
job registry, node endpoints, wallet, audit sink) become explicit oracle
parameters carrying the outcome the collaborator would deliver, and an
async function that can reject is modelled as returning `Except String α`
(`.error` = a raised/rejected error).  JavaScript numbers are idealised as
exact rationals (`ℚ`) or integers where only integral values occur; JS
object fields that may be `undefined` are modelled as `Option` fields, and
JS truthiness tests on such fields are translated explicitly (so `0`, the
empty string, `null` and `undefined` are falsy).
-/

namespace X402

/-- JavaScript truthiness of a possibly-undefined string value: `undefined`,
`null` and the empty string are falsy. -/
def jsTruthyStr : Option String → Bool
  | none => false
  | some s => s ≠ ""

/-- JavaScript `a || b` on a possibly-undefined string value. -/
def jsOrStr (a : Option String) (b : Option String) : Option String :=
  if jsTruthyStr a then a else b

/-- JavaScript `a || d` on a possibly-undefined string with a definite
string default. -/
def jsOrStrD (a : Option String) (d : String) : String :=
  match a with
  | some s => if s ≠ "" then s else d
  | none => d

/-- JavaScript `a || d` where `a` is a possibly-undefined number and `d` a
number default: `undefined` and `0` are falsy. -/
def jsOrInt : Option Int → Int → Int
  | none, d => d
  | some v, d => if v ≠ 0 then v else d

/-! ### PaymentVerifier (src/src/utils/PaymentVerifier.js)

The ledger receipt delivered by `fetchTransactionReceipt` (an external
ledger capability; the in-repo body is a placeholder stub per spec §9). -/

structure LedgerReceipt where
  amount : String
  asset : String
  status : String
  from_ : Option String := none
  to_ : Option String := none
  blockNumber : Option Int := none
  service : Option String := none
  metadata : Option String := none
  jobId : Option String := none
  expiresAt : Option Int := none
  deriving DecidableEq, Repr

/-- The object `PaymentVerifier.verify` resolves with.  JS returns literal
objects with different key sets per branch; absent keys are `none`. -/
structure VerifyReceipt where
  valid : Bool
  reason : Option String := none
  txHash : Option String := none
  expected : Option String := none
  received : Option String := none
  status : Option String := none
  expiresAt : Option Int := none
  amount : Option String := none
  asset : Option String := none
  from_ : Option String := none
  to_ : Option String := none
  blockNumber : Option Int := none
  service : Option String := none
  metadata : Option String := none
  jobId : Option String := none
  deriving DecidableEq, Repr

/-- Options object of `PaymentVerifier.verify` (the `timeout` member is
destructured by the source but never used afterwards). -/
structure VerifyOptions where
  txHash : String
  expectedAmount : String
  expectedAsset : String
  timeout : Option Int := none
  deriving DecidableEq, Repr

/-- Guard `receipt.expiresAt && Date.now() > receipt.expiresAt` of
PaymentVerifier.js line 67: an absent `expiresAt` is skipped, and so is a
zero one, because `0` is falsy in JS. -/
def expiryFailed (expiresAt : Option Int) (now : Int) : Bool :=
  match expiresAt with
  | none => false
  | some e => e ≠ 0 && now > e

namespace PaymentVerifier

/-- PaymentVerifier.verify (lines 23-94).  `fetchResult` is the outcome of
`await this.fetchTransactionReceipt(txHash)`: `.error` a rejected ledger
call, `.ok none` a missing receipt, `.ok (some r)` the receipt.  The JS
`try`/`catch` spans the whole body, and the only awaited call that can
reject is the fetch, so a fetch fault lands in the `catch` branch which
returns an invalid receipt carrying the error message. -/
def verify (fetchResult : Except String (Option LedgerReceipt)) (now : Int)
    (o : VerifyOptions) : Except String VerifyReceipt :=
  match fetchResult with
  | .error e =>
      .ok { valid := false, reason := some e, txHash := some o.txHash }
  | .ok none =>
      .ok { valid := false, reason := some "Transaction not found",
            txHash := some o.txHash }
  | .ok (some receipt) =>
      if receipt.amount ≠ o.expectedAmount then
        .ok { valid := false, reason := some "Amount mismatch",
              expected := some o.expectedAmount, received := some receipt.amount }
      else if receipt.asset ≠ o.expectedAsset then
        .ok { valid := false, reason := some "Asset mismatch",
              expected := some o.expectedAsset, received := some receipt.asset }
      else if receipt.status ≠ "confirmed" then
        .ok { valid := false, reason := some "Transaction not confirmed",
              status := some receipt.status }
      else if expiryFailed receipt.expiresAt now then
        .ok { valid := false, reason := some "Payment expired",
              expiresAt := receipt.expiresAt }
      else
        .ok { valid := true, txHash := some o.txHash,
              amount := some receipt.amount, asset := some receipt.asset,
              from_ := receipt.from_, to_ := receipt.to_,
              blockNumber := receipt.blockNumber, service := receipt.service,
              metadata := receipt.metadata, jobId := receipt.jobId }

end PaymentVerifier

/-! ### AgentMesh (src/src/services/AgentMesh.js) -/

/-- A node of the mesh's registry (`config.nodes`).  The source reads the
members `id`, `endpoint` and `load`; the spec's data model additionally
gives each node an `available` flag, carried here so that theorems can
speak about it. -/
structure AgentNode where
  id : String
  endpoint : String
  load : Int
  available : Bool
  deriving DecidableEq, Repr

/-- The mesh's configuration state set up by the constructor. -/
structure AgentMesh where
  networkNodes : List AgentNode
  routingStrategy : String
  deriving DecidableEq, Repr

/-- A task as `routeTask` consumes it (only `task.id` is read). -/
structure MeshTask where
  id : String
  deriving DecidableEq, Repr

/-- Result object of `routeTask`. -/
structure RouteResult where
  nodeId : String
  taskId : String
  result : String
  deriving DecidableEq, Repr

namespace AgentMesh

/-- AgentMesh.selectNode (lines 107-122).  `rand` stands for the value of
`Math.random()` scaled: `Math.floor(Math.random() * len)` is an arbitrary
index below `len`, modelled as `rand % len`.  The switch never consults a
node's `available` flag. -/
def selectNode (mesh : AgentMesh) (rand : Nat) : Option AgentNode :=
  if mesh.networkNodes.length = 0 then none
  else
    match mesh.routingStrategy with
    | "round-robin" => mesh.networkNodes.get? (rand % mesh.networkNodes.length)
    | "load-based" =>
        match mesh.networkNodes with
        | [] => none
        | n :: rest =>
            some (rest.foldl (fun prev curr =>
              if curr.load < prev.load then curr else prev) n)
    | _ => mesh.networkNodes.head?

/-- AgentMesh.routeTask (lines 18-34).  `send` is the outcome of the
external call `sendTaskToNode` (a fetch to the node's endpoint). -/
def routeTask (mesh : AgentMesh) (rand : Nat)
    (send : AgentNode → Except String String) (task : MeshTask) :
    Except String RouteResult :=
  match mesh.selectNode rand with
  | none => .error "No available nodes for task routing"
  | some node =>
      match send node with
      | .error e => .error e
      | .ok result => .ok { nodeId := node.id, taskId := task.id, result }

end AgentMesh

/-- Zero-pad a natural number on the left to six digits. -/
def pad6 (m : Nat) : String :=
  let s := toString m
  String.mk (List.replicate (6 - s.length) '0') ++ s

/-- JavaScript `x.toFixed(6)`, idealised over exact rationals: round the
value to six decimal places (nearest, ties away from zero) and print it
with exactly six fraction digits.  The rounded numerator is computed as
`⌊|q| * 10^6 + 1/2⌋ = (2 * |num| * 10^6 + den) / (2 * den)` in plain
natural-number arithmetic. -/
def toFixed6 (q : ℚ) : String :=
  let n : Nat := (2 * q.num.natAbs * 1000000 + q.den) / (2 * q.den)
  let sign := if q.num < 0 ∧ n ≠ 0 then "-" else ""
  sign ++ toString (n / 1000000) ++ "." ++ pad6 (n % 1000000)

/-- A recipient entry of `splitPayment`.  In JS this is a plain object; the
source reads the members `address` and `share`, while the spec's worked
example writes recipients with a `to` member instead, so both are carried
as possibly-absent fields. -/
structure Recipient where
  address : Option String := none
  to_ : Option String := none
  share : ℚ
  deriving DecidableEq, Repr

/-- The payment being split (`payment.amount`, `payment.asset`). -/
structure MeshPayment where
  amount : ℚ
  asset : String
  deriving DecidableEq, Repr

/-- One transfer of the split set, as built on lines 49-54. -/
structure SplitTransfer where
  to_ : Option String
  amount : String
  asset : String
  memo : String
  deriving DecidableEq, Repr

/-- Result of `executePayment` for one split: `{ success: true, ...split }`
(the in-repo body is a wallet-service placeholder per spec §9). -/
structure SplitExecResult where
  success : Bool
  to_ : Option String
  amount : String
  asset : String
  memo : String
  deriving DecidableEq, Repr

/-- Aggregate result object of `splitPayment`. -/
structure SplitPaymentResult where
  originalAmount : ℚ
  splits : List SplitExecResult
  timestamp : Int
  deriving DecidableEq, Repr

namespace AgentMesh

/-- The transfer built for one recipient (lines 49-54).  The memo renders
the share with Rat's printer, standing in for JS number-to-string; no
theorem depends on the memo text. -/
def mkSplit (payment : MeshPayment) (r : Recipient) : SplitTransfer :=
  { to_ := r.address,
    amount := toFixed6 (payment.amount * r.share / 100),
    asset := payment.asset,
    memo := "Payment split: " ++ toString r.share ++ "%" }

/-- AgentMesh.executePayment (lines 145-149). -/
def executePayment (s : SplitTransfer) : SplitExecResult :=
  { success := true, to_ := s.to_, amount := s.amount, asset := s.asset,
    memo := s.memo }

/-- AgentMesh.splitPayment (lines 42-68).  The second component of the pair
is the list of transfers handed to `executePayment`, i.e. the transfers
actually issued: it stays empty when the share-sum precondition throws,
because the throw happens before the splits are even built. -/
def splitPayment (payment : MeshPayment) (recipients : List Recipient)
    (now : Int) : Except String SplitPaymentResult × List SplitTransfer :=
  let totalShares := recipients.foldl (fun sum r => sum + r.share) 0
  if totalShares ≠ 100 then
    (.error "Payment shares must total 100%", [])
  else
    let splits := recipients.map (mkSplit payment)
    let results := splits.map executePayment
    (.ok { originalAmount := payment.amount, splits := results,
           timestamp := now }, splits)

end AgentMesh

/-! ### PaymentProcessor (src/src/services/PaymentProcessor.js) -/

/-- The metadata object of a receipt as the processor consumes it
(`receipt.metadata?.jobId`). -/
structure ProcMeta where
  jobId : Option String := none
  deriving DecidableEq, Repr

/-- The receipt the injected verifier resolves with, projected onto the
members `processPaymentRequest` reads. -/
structure ProcReceipt where
  valid : Bool
  reason : Option String := none
  service : Option String := none
  amount : Option String := none
  asset : Option String := none
  from_ : Option String := none
  blockNumber : Option Int := none
  metadata : Option ProcMeta := none
  jobId : Option String := none
  deriving DecidableEq, Repr

/-- A job handle from the external job registry (spec §6): `runOutcome` is
the settled outcome of `Promise.race([job.run(), 300s timeout])` — a
result, a job error, or the `Job timeout` rejection. -/
structure RegistryJob where
  runOutcome : Except String String
  deriving Repr

/-- Job configuration passed to `processPaymentRequest`. -/
structure JobConfig where
  amount : String
  asset : Option String := none
  deriving DecidableEq, Repr

/-- External collaborators of one `processPaymentRequest` attempt: the
injected verifier (`config.verifier`) and the job registry behind
`getJob` (the in-repo `getJob` body is a placeholder that throws; per
spec §9 the registry is the external interface of §6). -/
structure ProcEnv where
  verify : String → String → String → Except String ProcReceipt
  getJob : String → Except String (Option RegistryJob)

/-- Result object of `processPaymentRequest`. -/
structure ProcResult where
  success : Bool
  jobId : Option String := none
  result : Option String := none
  error : Option String := none
  deriving DecidableEq, Repr

/-- An entry handed to `logAudit` (the audit sink).  The failure-path entry
written in the catch block carries no `jobId`, `timestamp` or `result`. -/
structure AuditEntry where
  jobId : Option String := none
  txHash : String
  status : String
  timestamp : Option Int := none
  result : Option String := none
  error : Option String := none
  deriving DecidableEq, Repr

/-- One observable step of a `processPaymentRequest` attempt, in the order
the steps happen: the verifier call, the job run, an audit write. -/
inductive ProcEvent where
  | verifyCall (txHash expectedAmount expectedAsset : String)
  | jobRun (jobId : String)
  | auditWrite (entry : AuditEntry)
  deriving DecidableEq, Repr

namespace PaymentProcessor

/-- PaymentProcessor.executeJob (lines 77-100), with the events it
produces: the job runs (after `setContext`) only when the registry finds
it. -/
def executeJob (env : ProcEnv) (jobId : String) :
    Except String String × List ProcEvent :=
  match env.getJob jobId with
  | .error e => (.error e, [])
  | .ok none => (.error ("Job " ++ jobId ++ " not found"), [])
  | .ok (some job) => (job.runOutcome, [.jobRun jobId])

/-- PaymentProcessor.processPaymentRequest (lines 20-69).  Returns the
settled outcome together with the full event trace of the attempt.  The
expected asset defaults by `jobConfig.asset || 'USDC'`; the job id is
`receipt.metadata?.jobId || receipt.jobId` and is fatal when falsy.  On a
receipt with `valid: false` the function returns early: no audit entry is
written on that path. -/
def processPaymentRequest (env : ProcEnv) (txHash : String)
    (jobConfig : JobConfig) (now : Int) :
    Except String ProcResult × List ProcEvent :=
  let expectedAsset := jsOrStrD jobConfig.asset "USDC"
  let ev0 : ProcEvent := .verifyCall txHash jobConfig.amount expectedAsset
  match env.verify txHash jobConfig.amount expectedAsset with
  | .error e =>
      (.error e,
       [ev0, .auditWrite { txHash, status := "failed", error := some e }])
  | .ok receipt =>
      if !receipt.valid then
        (.ok { success := false, error := receipt.reason }, [ev0])
      else
        let jobId := jsOrStr (receipt.metadata.bind (·.jobId)) receipt.jobId
        if jsTruthyStr jobId then
          let j := jobId.getD ""
          match executeJob env j with
          | (.error e, evs) =>
              (.error e,
               ev0 :: evs ++
                 [.auditWrite { txHash, status := "failed", error := some e }])
          | (.ok res, evs) =>
              (.ok { success := true, jobId := some j, result := some res },
               ev0 :: evs ++
                 [.auditWrite { jobId := some j, txHash, status := "completed",
                                timestamp := some now, result := some res }])
        else
          (.error "No job ID found in payment metadata",
           [ev0, .auditWrite { txHash, status := "failed",
                               error := some "No job ID found in payment metadata" }])

/-- The audit entries a trace writes, in order. -/
def auditsOf (evs : List ProcEvent) : List AuditEntry :=
  evs.filterMap (fun e =>
    match e with
    | .auditWrite entry => some entry
    | _ => none)

end PaymentProcessor

/-! ### ProofEngine (src/unnamed sources, BridgeLayer/ProofEngine file)

The canonical snapshot `proofData` built by `generateProof` (its seven
keys, in source order, plus the `service` key that `generateAuditSummary`
destructures from `proof.data`; `generateProof` never sets it, which in JS
leaves it `undefined`).  `metadata` is the transaction's metadata object,
carried opaquely in its serialized form. -/

structure ProofData where
  txHash : String
  timestamp : Int
  amount : String
  asset : String
  from_ : String
  to_ : String
  metadata : String
  service : Option String := none
  deriving DecidableEq, Repr

/-- A transaction as `generateProof` consumes it; `signer` present makes
the engine sign the snapshot. -/
structure PTransaction where
  hash : String
  timestamp : Int
  amount : String
  asset : String
  from_ : String
  to_ : String
  metadata : String
  signer : Option String := none
  deriving DecidableEq, Repr

/-- The proof object. -/
structure TxProof where
  hash : String
  signature : Option String
  algorithm : String
  timestamp : Int
  data : ProofData
  deriving DecidableEq, Repr

/-- The engine.  `stringify` stands for `JSON.stringify` and `sha256Hex`
for `TextEncoder` + `crypto.subtle.digest('SHA-256')` + hex rendering:
both are external primitives (spec §1 treats hashing as an opaque hasher
capability supplying deterministic digests), so they are carried as
capability fields of the engine rather than re-implemented. -/
structure ProofEngine where
  algorithm : String
  stringify : ProofData → String
  sha256Hex : String → String

namespace ProofEngine

/-- ProofEngine.hashProof: JSON-serialize the data and digest it; any
algorithm other than sha256 rejects. -/
def hashProof (e : ProofEngine) (d : ProofData) : Except String String :=
  if e.algorithm = "sha256" then .ok (e.sha256Hex (e.stringify d))
  else .error ("Unsupported algorithm: " ++ e.algorithm)

/-- ProofEngine.signProof: the in-repo body derives the signature from the
snapshot's own hash (`sig_` plus its first 16 characters). -/
def signProof (e : ProofEngine) (d : ProofData) : Except String String :=
  (e.hashProof d).map (fun h => "sig_" ++ h.take 16)

/-- ProofEngine.verifySignature: the in-repo body returns true
unconditionally (placeholder). -/
def verifySignature (_e : ProofEngine) (_d : ProofData) (_sig : String) :
    Bool :=
  true

/-- ProofEngine.generateProof (lines 165-198).  The optional proof-store
side effect is external and write-only, so it is not modelled; a
rejection of the awaited hash or signing step propagates. -/
def generateProof (e : ProofEngine) (tx : PTransaction) (now : Int) :
    Except String TxProof :=
  let proofData : ProofData :=
    { txHash := tx.hash, timestamp := tx.timestamp, amount := tx.amount,
      asset := tx.asset, from_ := tx.from_, to_ := tx.to_,
      metadata := tx.metadata }
  match e.hashProof proofData with
  | .error err => .error err
  | .ok hash =>
      match tx.signer with
      | some _ =>
          match e.signProof proofData with
          | .error err => .error err
          | .ok sig =>
              .ok { hash, signature := some sig, algorithm := e.algorithm,
                    timestamp := now, data := proofData }
      | none =>
          .ok { hash, signature := none, algorithm := e.algorithm,
                timestamp := now, data := proofData }

/-- ProofEngine.verifyProof (lines 205-226). -/
def verifyProof (e : ProofEngine) (p : TxProof) : Except String Bool :=
  match e.hashProof p.data with
  | .error err => .error err
  | .ok computedHash =>
      if computedHash ≠ p.hash then .ok false
      else
        match p.signature with
        | some sig =>
            if e.verifySignature p.data sig then .ok true else .ok false
        | none => .ok true

end ProofEngine

/-- A JavaScript number that may be NaN: `none` is NaN, `some q` a finite
value (audit summaries add `parseFloat` results, which can be NaN). -/
def JNum := Option ℚ
  deriving DecidableEq, Repr

/-- Addition of JS numbers: NaN absorbs. -/
def jadd : JNum → JNum → JNum
  | some a, some b => some (a + b)
  | _, _ => none

/-- JavaScript truthiness of a number value: NaN and 0 are falsy. -/
def jsTruthyNum : JNum → Bool
  | none => false
  | some q => q ≠ 0

/-- JavaScript `parseFloat`, modelled for plain decimal literals: optional
sign, digits, optional fraction digits, longest-prefix parse; a string
whose first characters form no number yields NaN (`none`).  Exponent
forms are not modelled; no theorem feeds one. -/
def jsParseFloat (s : String) : JNum :=
  let chars := s.data
  let (neg, rest) :=
    match chars with
    | '-' :: cs => (true, cs)
    | '+' :: cs => (false, cs)
    | cs => (false, cs)
  let intDigits := rest.takeWhile Char.isDigit
  let afterInt := rest.drop intDigits.length
  let fracDigits :=
    match afterInt with
    | '.' :: cs => cs.takeWhile Char.isDigit
    | _ => []
  if intDigits.isEmpty ∧ fracDigits.isEmpty then none
  else
    let digitsVal (l : List Char) : Nat :=
      l.foldl (fun acc c => 10 * acc + (c.toNat - 48)) 0
    let ip : ℚ := (digitsVal intDigits : ℚ)
    let fp : ℚ := (digitsVal fracDigits : ℚ) / ((10 : ℚ) ^ fracDigits.length)
    some ((if neg then -1 else 1) * (ip + fp))

/-- Set or append a key in a JS object modelled as an insertion-ordered
association list. -/
def assocSet {α : Type} : List (String × α) → String → α → List (String × α)
  | [], k, v => [(k, v)]
  | (k0, v0) :: rest, k, v =>
      if k0 = k then (k0, v) :: rest else (k0, v0) :: assocSet rest k v

/-- The audit summary object.  `timeStart` is `timeRange.start`, seeded
with `Infinity` (`⊤`); `timeEnd` is `timeRange.end`, seeded with `0`. -/
structure AuditSummary where
  totalTransactions : Nat
  totalAmount : JNum
  assets : List (String × JNum)
  services : List (String × Nat)
  timeStart : WithTop Int
  timeEnd : Int
  deriving DecidableEq

namespace ProofEngine

/-- One step of the `proofs.forEach` fold of `generateAuditSummary`:
`summary.assets[asset] || 0` re-reads a stored value with JS truthiness
(so a stored NaN or 0 restarts at 0), and a falsy `service` key is
skipped. -/
def summarizeStep (s : AuditSummary) (p : TxProof) : AuditSummary :=
  let amt := jsParseFloat p.data.amount
  let prevAsset :=
    match s.assets.lookup p.data.asset with
    | some v => if jsTruthyNum v then v else some 0
    | none => some 0
  let services :=
    if jsTruthyStr p.data.service then
      let key := p.data.service.getD ""
      let prev :=
        match s.services.lookup key with
        | some n => n
        | none => 0
      assocSet s.services key (prev + 1)
    else s.services
  { s with
    totalAmount := jadd s.totalAmount amt,
    assets := assocSet s.assets p.data.asset (jadd prevAsset amt),
    services := services,
    timeStart := if (p.data.timestamp : WithTop Int) < s.timeStart then
        (p.data.timestamp : WithTop Int) else s.timeStart,
    timeEnd := if p.data.timestamp > s.timeEnd then p.data.timestamp
        else s.timeEnd }

/-- ProofEngine.generateAuditSummary (lines 233-265). -/
def generateAuditSummary (proofs : List TxProof) : AuditSummary :=
  let init : AuditSummary :=
    { totalTransactions := proofs.length, totalAmount := some 0,
      assets := [], services := [], timeStart := ⊤, timeEnd := 0 }
  proofs.foldl summarizeStep init

end ProofEngine

/-! ### AgentWallet (src/src/sdk/x402Client.js, second part) -/

/-- The receipt `getTransactionReceipt` resolves with (external ledger
query; the in-repo body is a placeholder).  All fields may be absent. -/
structure WalletReceipt where
  hash : Option String := none
  confirmations : Option Int := none
  blockNumber : Option Int := none
  status : Option String := none
  deriving DecidableEq, Repr

/-- The object `waitForConfirmation` resolves with:
`{ status: 'confirmed', ...receipt }`.  JS object spread lets the
receipt's own keys override the earlier `status: 'confirmed'` stamp, so
the stamp survives only when the receipt carries no `status` key. -/
structure ConfirmedReceipt where
  hash : Option String := none
  confirmations : Option Int := none
  blockNumber : Option Int := none
  status : String
  deriving DecidableEq, Repr

/-- Options object of `waitForConfirmation`. -/
structure WaitOptions where
  confirmations : Option Int := none
  timeout : Option Int := none
  deriving DecidableEq, Repr

namespace AgentWallet

/-- JS `receipt.confirmations >= confirmations`: comparing an absent
member is comparing `undefined` (NaN), which is false. -/
def confReached (confirmations : Option Int) (need : Int) : Bool :=
  match confirmations with
  | none => false
  | some c => c ≥ need

/-- Spread `{ status: 'confirmed', ...receipt }`. -/
def stampReceipt (r : WalletReceipt) : ConfirmedReceipt :=
  { hash := r.hash, confirmations := r.confirmations,
    blockNumber := r.blockNumber, status := r.status.getD "confirmed" }

/-- The polling loop of `waitForConfirmation`: `polls i` is the receipt
the ledger returns at the i-th poll (`none` = no receipt yet), `fuel` the
number of loop iterations the `Date.now() - startTime < maxWait` guard
admits (polls happen at elapsed times 0, 2000, 4000, ...). -/
def waitLoop (polls : Nat → Option WalletReceipt) (need : Int) :
    Nat → Nat → Except String ConfirmedReceipt
  | 0, _ => .error "Transaction confirmation timeout"
  | fuel + 1, i =>
      match polls i with
      | some r =>
          if confReached r.confirmations need then .ok (stampReceipt r)
          else waitLoop polls need fuel (i + 1)
      | none => waitLoop polls need fuel (i + 1)

/-- Iterations the while-guard admits: the i-th poll runs at elapsed time
`2000 * i` and requires `2000 * i < maxWait`. -/
def fuelFor (maxWait : Int) : Nat :=
  (maxWait.toNat + 1999) / 2000

/-- AgentWallet.waitForConfirmation (x402Client.js lines 200-221).  The
confirmation count defaults by `options.confirmations || 1` and the
window by `options.timeout || 120000`. -/
def waitForConfirmation (polls : Nat → Option WalletReceipt)
    (options : WaitOptions) : Except String ConfirmedReceipt :=
  let confirmations := jsOrInt options.confirmations 1
  let maxWait := jsOrInt options.timeout 120000
  waitLoop polls confirmations (fuelFor maxWait) 0

end AgentWallet

/-! ### TaskOrchestrator (src/unnamed sources, first part) -/

/-- The transaction handle `wallet.pay` resolves with, projected onto the
members `requestRenderService` reads (`paymentTx.hash`,
`paymentTx.metadata.jobId`). -/
structure OrchPayTx where
  hash : String
  metadataJobId : String
  deriving DecidableEq, Repr

/-- External collaborators of one `requestRenderService` run: the wallet's
`pay`, the handle's `wait` (confirmation polling) and the render agent's
notify endpoint.  Each carries the outcome the collaborator settles
with. -/
structure OrchEnv where
  pay : Except String OrchPayTx
  wait : Except String ConfirmedReceipt
  notify : Except String String

/-- Result object of `requestRenderService`. -/
structure RenderResult where
  success : Bool
  txHash : String
  jobId : String
  deriving DecidableEq, Repr

namespace TaskOrchestrator

/-- TaskOrchestrator.requestRenderService (lines 22-67), paired with
whether the notify call to the render agent was made.  The catch block
only logs and rethrows, so it is the identity on errors. -/
def requestRenderService (env : OrchEnv) :
    Except String RenderResult × Bool :=
  match env.pay with
  | .error e => (.error e, false)
  | .ok tx =>
      match env.wait with
      | .error e => (.error e, false)
      | .ok receipt =>
          if receipt.status = "confirmed" then
            match env.notify with
            | .error e => (.error e, true)
            | .ok _ =>
                (.ok { success := true, txHash := tx.hash,
                       jobId := tx.metadataJobId }, true)
          else
            (.error "Payment confirmation failed", false)

end TaskOrchestrator

/-! ### Decidability helper -/

instance {ε α : Type} [DecidableEq ε] [DecidableEq α] :
    DecidableEq (Except ε α) := fun x y =>
  match x, y with
  | .error a, .error b =>
      if h : a = b then .isTrue (by rw [h])
      else .isFalse (fun hh => by cases hh; exact h rfl)
  | .ok a, .ok b =>
      if h : a = b then .isTrue (by rw [h])
      else .isFalse (fun hh => by cases hh; exact h rfl)
  | .error _, .ok _ => .isFalse (fun h => Except.noConfusion h)
  | .ok _, .error _ => .isFalse (fun h => Except.noConfusion h)

/-! ### Claim C1 -/

/-- C1 (corrected).  Characterization of `PaymentVerifier.verify` on a
receipt the ledger returns: the verdict is valid exactly when amount and
asset match by exact string comparison, the status is confirmed, and any
nonzero `expiresAt` is not earlier than the current time (a zero
`expiresAt` is skipped by the JS truthiness guard — the one amendment to
the claim); each failing condition yields its reason, with expected and
received values attached to the mismatch reasons; the expiry check fires
only when amount, asset and status all passed (checked last); and the
success receipt passes `from`, `to` and `blockNumber` through from the
ledger receipt unchanged.  A missing receipt yields the not-found
reason. -/
theorem C1_verify_characterization (r : LedgerReceipt) (o : VerifyOptions)
    (now : Int) :
    (PaymentVerifier.verify (.ok (some r)) now o =
        .ok { valid := true, txHash := some o.txHash,
              amount := some r.amount, asset := some r.asset,
              from_ := r.from_, to_ := r.to_, blockNumber := r.blockNumber,
              service := r.service, metadata := r.metadata, jobId := r.jobId }
      ↔ (r.amount = o.expectedAmount ∧ r.asset = o.expectedAsset ∧
          r.status = "confirmed" ∧ expiryFailed r.expiresAt now = false)) ∧
    (r.amount ≠ o.expectedAmount →
      PaymentVerifier.verify (.ok (some r)) now o =
        .ok { valid := false, reason := some "Amount mismatch",
              expected := some o.expectedAmount,
              received := some r.amount }) ∧
    (r.amount = o.expectedAmount → r.asset ≠ o.expectedAsset →
      PaymentVerifier.verify (.ok (some r)) now o =
        .ok { valid := false, reason := some "Asset mismatch",
              expected := some o.expectedAsset,
              received := some r.asset }) ∧
    (r.amount = o.expectedAmount → r.asset = o.expectedAsset →
      r.status ≠ "confirmed" →
      PaymentVerifier.verify (.ok (some r)) now o =
        .ok { valid := false, reason := some "Transaction not confirmed",
              status := some r.status }) ∧
    (r.amount = o.expectedAmount → r.asset = o.expectedAsset →
      r.status = "confirmed" → expiryFailed r.expiresAt now = true →
      PaymentVerifier.verify (.ok (some r)) now o =
        .ok { valid := false, reason := some "Payment expired",
              expiresAt := r.expiresAt }) ∧
    (PaymentVerifier.verify (.ok none) now o =
      .ok { valid := false, reason := some "Transaction not found",
            txHash := some o.txHash }) := by
  refine ⟨?_, ?_, ?_, ?_, ?_, rfl⟩
  · constructor
    · intro h
      by_cases h1 : r.amount = o.expectedAmount
      · by_cases h2 : r.asset = o.expectedAsset
        · by_cases h3 : r.status = "confirmed"
          · by_cases h4 : expiryFailed r.expiresAt now
            · simp [PaymentVerifier.verify, h1, h2, h3, h4] at h
            · exact ⟨h1, h2, h3, by simpa using h4⟩
          · simp [PaymentVerifier.verify, h1, h2, h3] at h
        · simp [PaymentVerifier.verify, h1, h2] at h
      · simp [PaymentVerifier.verify, h1] at h
    · rintro ⟨h1, h2, h3, h4⟩
      simp [PaymentVerifier.verify, h1, h2, h3, h4]
  · intro h1
    simp [PaymentVerifier.verify, h1]
  · intro h1 h2
    simp [PaymentVerifier.verify, h1, h2]
  · intro h1 h2 h3
    simp [PaymentVerifier.verify, h1, h2, h3]
  · intro h1 h2 h3 h4
    simp [PaymentVerifier.verify, h1, h2, h3, h4]

/-- C1 counterexample to the claim as stated: a ledger receipt carrying
`expiresAt = 0`, strictly earlier than the current time 1000, still
verifies as valid, because `receipt.expiresAt &&` treats the number 0 as
absent.  The claim's "any expiresAt it carries is not earlier than the
current time" demands `valid = false` here. -/
theorem C1_zero_expiry_counterexample :
    PaymentVerifier.verify
      (.ok (some { amount := "0.5", asset := "USDC", status := "confirmed",
                   expiresAt := some 0 })) 1000
      { txHash := "0xabc", expectedAmount := "0.5",
        expectedAsset := "USDC" } =
    .ok { valid := true, txHash := some "0xabc", amount := some "0.5",
          asset := some "USDC", expiresAt := none } := by
  decide

/-! ### Claim C2 -/

/-- C2 (corrected).  `processPaymentRequest` writes exactly one audit
entry — last, after verification and job execution are final — on the
success path (status completed) and on every raised-failure path (status
failed, capturing the failure message, including a rejected verifier
call); but when verification resolves with an invalid receipt the
function returns early with `{success: false}` and writes no audit entry
at all, which is the amendment to the claim. -/
theorem C2_audit_on_paths (env : ProcEnv) (txHash : String)
    (cfg : JobConfig) (now : Int) :
    (∀ receipt : ProcReceipt,
      env.verify txHash cfg.amount (jsOrStrD cfg.asset "USDC") =
          .ok receipt →
      receipt.valid = false →
      PaymentProcessor.processPaymentRequest env txHash cfg now =
        (.ok { success := false, error := receipt.reason },
         [.verifyCall txHash cfg.amount (jsOrStrD cfg.asset "USDC")]) ∧
      PaymentProcessor.auditsOf
        (PaymentProcessor.processPaymentRequest env txHash cfg now).2 =
        []) ∧
    (∀ e,
      (PaymentProcessor.processPaymentRequest env txHash cfg now).1 =
          .error e →
      PaymentProcessor.auditsOf
        (PaymentProcessor.processPaymentRequest env txHash cfg now).2 =
        [{ txHash := txHash, status := "failed", error := some e }] ∧
      (PaymentProcessor.processPaymentRequest env txHash cfg now).2.getLast? =
        some (.auditWrite
          { txHash := txHash, status := "failed", error := some e })) ∧
    (∀ res,
      (PaymentProcessor.processPaymentRequest env txHash cfg now).1 =
          .ok res →
      res.success = true →
      ∃ j r, res = { success := true, jobId := some j, result := some r } ∧
        PaymentProcessor.auditsOf
          (PaymentProcessor.processPaymentRequest env txHash cfg now).2 =
          [{ jobId := some j, txHash := txHash, status := "completed",
             timestamp := some now, result := some r }] ∧
        (PaymentProcessor.processPaymentRequest env txHash cfg
            now).2.getLast? =
          some (.auditWrite
            { jobId := some j, txHash := txHash, status := "completed",
              timestamp := some now, result := some r }) ∧
        ProcEvent.jobRun j ∈
          (PaymentProcessor.processPaymentRequest env txHash cfg now).2) := by
  rcases hv : env.verify txHash cfg.amount (jsOrStrD cfg.asset "USDC")
    with e | receipt
  · refine ⟨?_, ?_, ?_⟩
    · intro receipt hr
      exact absurd hr (by simp)
    · intro e2 he2
      simp only [PaymentProcessor.processPaymentRequest, hv] at he2 ⊢
      cases he2
      exact ⟨rfl, rfl⟩
    · intro res hres
      simp only [PaymentProcessor.processPaymentRequest, hv] at hres
      exact absurd hres (by simp)
  · by_cases hvalid : receipt.valid
    · by_cases htruthy :
        jsTruthyStr (jsOrStr (receipt.metadata.bind (fun m => m.jobId))
          receipt.jobId)
      · rcases hj : PaymentProcessor.executeJob env
            ((jsOrStr (receipt.metadata.bind (fun m => m.jobId))
              receipt.jobId).getD "") with ⟨outcome, evs⟩
        have hevs : evs = [] ∨
            evs = [.jobRun ((jsOrStr (receipt.metadata.bind
              (fun m => m.jobId)) receipt.jobId).getD "")] := by
          revert hj
          unfold PaymentProcessor.executeJob
          rcases env.getJob ((jsOrStr (receipt.metadata.bind
              (fun m => m.jobId)) receipt.jobId).getD "") with e | o
          · intro hj
            cases hj
            exact .inl rfl
          · cases o
            · intro hj
              cases hj
              exact .inl rfl
            · intro hj
              cases hj
              exact .inr rfl
        have hevsok : ∀ r : String, outcome = .ok r →
            evs = [.jobRun ((jsOrStr (receipt.metadata.bind
              (fun m => m.jobId)) receipt.jobId).getD "")] := by
          intro r hr
          revert hj
          unfold PaymentProcessor.executeJob
          rcases env.getJob ((jsOrStr (receipt.metadata.bind
              (fun m => m.jobId)) receipt.jobId).getD "") with e | o
          · intro hj
            cases hj
            exact absurd hr (by simp)
          · cases o
            · intro hj
              cases hj
              exact absurd hr (by simp)
            · intro hj
              cases hj
              rfl
        rcases outcome with e | res
        · refine ⟨?_, ?_, ?_⟩
          · intro receipt2 hr
            cases hr
            intro hfalse
            rw [hvalid] at hfalse
            exact absurd hfalse (by simp)
          · intro e2 he2
            simp only [PaymentProcessor.processPaymentRequest, hv, hvalid,
              htruthy, hj] at he2 ⊢
            simp at he2
            subst he2
            rcases hevs with hevs | hevs <;> subst hevs <;>
              simp [PaymentProcessor.auditsOf, List.getLast?]
          · intro res hres
            simp only [PaymentProcessor.processPaymentRequest, hv, hvalid,
              htruthy, hj] at hres
            exact absurd hres (by simp)
        · have hevs2 := hevsok res rfl
          subst hevs2
          refine ⟨?_, ?_, ?_⟩
          · intro receipt2 hr
            cases hr
            intro hfalse
            rw [hvalid] at hfalse
            exact absurd hfalse (by simp)
          · intro e2 he2
            simp only [PaymentProcessor.processPaymentRequest, hv, hvalid,
              htruthy, hj] at he2
            exact absurd he2 (by simp)
          · intro r hres _
            simp only [PaymentProcessor.processPaymentRequest, hv, hvalid,
              htruthy, hj] at hres ⊢
            simp at hres
            subst hres
            refine ⟨(jsOrStr (receipt.metadata.bind (fun m => m.jobId))
              receipt.jobId).getD "", res, rfl, ?_⟩
            simp [PaymentProcessor.auditsOf, List.getLast?]
      · refine ⟨?_, ?_, ?_⟩
        · intro receipt2 hr
          cases hr
          intro hfalse
          rw [hvalid] at hfalse
          exact absurd hfalse (by simp)
        · intro e2 he2
          simp only [PaymentProcessor.processPaymentRequest, hv, hvalid,
            htruthy] at he2 ⊢
          simp at he2
          subst he2
          exact ⟨rfl, rfl⟩
        · intro res hres
          simp only [PaymentProcessor.processPaymentRequest, hv, hvalid,
            htruthy] at hres
          exact absurd hres (by simp)
    · rw [Bool.not_eq_true] at hvalid
      refine ⟨?_, ?_, ?_⟩
      · intro receipt2 hr
        cases hr
        intro _
        constructor
        · simp [PaymentProcessor.processPaymentRequest, hv, hvalid]
        · simp [PaymentProcessor.processPaymentRequest, hv, hvalid,
            PaymentProcessor.auditsOf]
      · intro e2 he2
        simp only [PaymentProcessor.processPaymentRequest, hv,
          hvalid] at he2
        exact absurd he2 (by simp)
      · intro res hres hsucc
        simp only [PaymentProcessor.processPaymentRequest, hv,
          hvalid] at hres
        simp at hres
        subst hres
        exact absurd hsucc (by simp)

/-- A processing environment whose verifier resolves with an invalid
receipt (amount mismatch) and whose registry knows no job. -/
def c2Env : ProcEnv :=
  { verify := fun _ _ _ =>
      .ok { valid := false, reason := some "Amount mismatch" },
    getJob := fun _ => .ok none }

/-- C2 counterexample to the claim as stated: when verification returns
an invalid receipt, the attempt ends with `{success: false}` and the
event trace contains no audit write at all — not the "exactly one audit
entry for every processed request" the claim asserts for this case. -/
theorem C2_invalid_receipt_no_audit :
    PaymentProcessor.processPaymentRequest c2Env "0xabc"
      { amount := "0.5" } 0 =
      (.ok { success := false, error := some "Amount mismatch" },
       [.verifyCall "0xabc" "0.5" "USDC"]) ∧
    PaymentProcessor.auditsOf
      (PaymentProcessor.processPaymentRequest c2Env "0xabc"
        { amount := "0.5" } 0).2 = [] := by
  exact ⟨rfl, rfl⟩

/-! ### Claim C3 -/

/-- C3 (confirmed).  `splitPayment` validates the whole recipient set
before any transfer: when the shares do not sum to exactly 100 it throws
the share-sum error and the list of issued transfers is empty, and when
they do sum to 100 it does not throw and issues one transfer per
recipient. -/
theorem C3_split_all_or_nothing (payment : MeshPayment)
    (recipients : List Recipient) (now : Int) :
    (recipients.foldl (fun sum r => sum + r.share) 0 ≠ 100 →
      AgentMesh.splitPayment payment recipients now =
        (.error "Payment shares must total 100%", [])) ∧
    (recipients.foldl (fun sum r => sum + r.share) 0 = 100 →
      AgentMesh.splitPayment payment recipients now =
        (.ok { originalAmount := payment.amount,
               splits := (recipients.map (AgentMesh.mkSplit payment)).map
                 AgentMesh.executePayment,
               timestamp := now },
         recipients.map (AgentMesh.mkSplit payment)) ∧
      (AgentMesh.splitPayment payment recipients now).2.length =
        recipients.length) := by
  constructor
  · intro h
    simp [AgentMesh.splitPayment, h]
  · intro h
    refine ⟨by simp [AgentMesh.splitPayment, h], ?_⟩
    simp [AgentMesh.splitPayment, h]

/-! ### Claim C7 -/

/-- C7 (corrected).  Each transfer of an accepted split carries the amount
`payment.amount * share / 100` rendered to six decimal places and the
payment's asset; but its `to` member is read from the recipient's
`address` member, so the claim's worked example — whose recipients are
keyed `to:"A"`, `to:"B"` — produces transfers to an absent address.  With
the recipients keyed `address` instead, the example yields 60.000000 to A
and 40.000000 to B, each tagged USDC, as amended. -/
theorem C7_split_transfer_shape (payment : MeshPayment)
    (recipients : List Recipient) (now : Int) :
    (recipients.foldl (fun sum r => sum + r.share) 0 = 100 →
      (AgentMesh.splitPayment payment recipients now).2 =
        recipients.map (AgentMesh.mkSplit payment)) ∧
    (∀ r : Recipient,
      (AgentMesh.mkSplit payment r).amount =
          toFixed6 (payment.amount * r.share / 100) ∧
        (AgentMesh.mkSplit payment r).asset = payment.asset ∧
        (AgentMesh.mkSplit payment r).to_ = r.address) ∧
    ((AgentMesh.splitPayment { amount := 100, asset := "USDC" }
        [{ address := some "A", share := 60 },
         { address := some "B", share := 40 }] 0).2.map
          (fun s => (s.to_, s.amount, s.asset)) =
      [(some "A", "60.000000", "USDC"), (some "B", "40.000000", "USDC")]) := by
  refine ⟨?_, ?_, ?_⟩
  · intro h
    simp [AgentMesh.splitPayment, h]
  · intro r
    exact ⟨rfl, rfl, rfl⟩
  · have hsum : (([{ address := some "A", share := 60 },
        { address := some "B", share := 40 }] :
          List Recipient).foldl (fun sum r => sum + r.share) 0) = 100 := by
      simp [List.foldl]
      norm_num
    have h60 : ((100 : ℚ) * 60 / 100) = 60 := by norm_num
    have h40 : ((100 : ℚ) * 40 / 100) = 40 := by norm_num
    simp [AgentMesh.splitPayment, hsum, AgentMesh.mkSplit, h60, h40]
    constructor
    · show toFixed6 60 = "60.000000"
      decide
    · show toFixed6 40 = "40.000000"
      decide

/-- C7 counterexample to the claim's worked example as stated: feeding
`splitPayment` the example's literal recipients `{to:"A", share:60}` and
`{to:"B", share:40}` yields transfers whose `to` member is absent
(`undefined`), not A and B, because the source reads
`recipient.address`. -/
theorem C7_example_to_keyed_counterexample :
    ((AgentMesh.splitPayment { amount := 100, asset := "USDC" }
        [{ to_ := some "A", share := 60 },
         { to_ := some "B", share := 40 }] 0).2.map (fun s => s.to_)) =
      [none, none] ∧
    ([none, none] : List (Option String)) ≠ [some "A", some "B"] := by
  constructor
  · have hsum : (([{ to_ := some "A", share := 60 },
        { to_ := some "B", share := 40 }] :
          List Recipient).foldl (fun sum r => sum + r.share) 0) = 100 := by
      simp [List.foldl]
      norm_num
    simp [AgentMesh.splitPayment, hsum, AgentMesh.mkSplit]
  · decide

/-! ### Claim C6 -/

/-- The reduce of the load-based branch returns a member of the candidate
list with minimal load (ties keep the earlier node, as `<` is strict). -/
theorem foldl_minLoad (n : AgentNode) (rest : List AgentNode) :
    rest.foldl (fun prev curr => if curr.load < prev.load then curr
      else prev) n ∈ n :: rest ∧
    ∀ m ∈ n :: rest,
      (rest.foldl (fun prev curr => if curr.load < prev.load then curr
        else prev) n).load ≤ m.load := by
  induction rest generalizing n with
  | nil => simp
  | cons c cs ih =>
      simp only [List.foldl]
      by_cases h : c.load < n.load
      · simp only [h, if_true]
        obtain ⟨h1, h2⟩ := ih c
        refine ⟨?_, ?_⟩
        · rcases List.mem_cons.mp h1 with h1 | h1
          · rw [h1]
            exact List.mem_cons.mpr (.inr (List.mem_cons_self c cs))
          · exact List.mem_cons.mpr (.inr (List.mem_cons.mpr (.inr h1)))
        · intro m hm
          rcases List.mem_cons.mp hm with rfl | hm
          · exact le_of_lt (lt_of_le_of_lt (h2 c (List.mem_cons_self c cs)) h)
          · exact h2 m hm
      · simp only [h, if_false]
        obtain ⟨h1, h2⟩ := ih n
        refine ⟨?_, ?_⟩
        · rcases List.mem_cons.mp h1 with h1 | h1
          · rw [h1]
            exact List.mem_cons_self n (c :: cs)
          · exact List.mem_cons.mpr (.inr (List.mem_cons.mpr (.inr h1)))
        · intro m hm
          rcases List.mem_cons.mp hm with rfl | hm
          · exact h2 m (List.mem_cons_self m cs)
          · rcases List.mem_cons.mp hm with rfl | hm
            · exact le_trans (h2 n (List.mem_cons_self n cs))
                (le_of_not_lt h)
            · exact h2 m (List.mem_cons.mpr (.inr hm))

/-- C6 (corrected).  Node selection never consults the `available` flag:
under every policy the selected node is one of the configured nodes
(under round-robin any index can come up, so any configured node may be
selected — available or not, the amendment); under load-based the
selected node has the numerically lowest load among all configured
nodes; an unrecognized policy selects the first node; and `routeTask`
raises the no-available-nodes error exactly on an empty node registry (a
registry of exclusively unavailable nodes does not raise). -/
theorem C6_selection_policy (mesh : AgentMesh) (rand : Nat)
    (send : AgentNode → Except String String) (task : MeshTask) :
    (∀ n, mesh.selectNode rand = some n → n ∈ mesh.networkNodes) ∧
    (mesh.routingStrategy = "load-based" →
      ∀ n, mesh.selectNode rand = some n →
        ∀ m ∈ mesh.networkNodes, n.load ≤ m.load) ∧
    (mesh.routingStrategy ≠ "round-robin" →
      mesh.routingStrategy ≠ "load-based" →
      mesh.selectNode rand = mesh.networkNodes.head?) ∧
    (mesh.routingStrategy = "round-robin" →
      rand < mesh.networkNodes.length →
      mesh.selectNode rand = mesh.networkNodes.get? rand) ∧
    (mesh.networkNodes = [] →
      AgentMesh.routeTask mesh rand send task =
        .error "No available nodes for task routing") ∧
    (mesh.networkNodes ≠ [] → mesh.selectNode rand ≠ none) := by
  refine ⟨?_, ?_, ?_, ?_, ?_, ?_⟩
  · intro n h
    unfold AgentMesh.selectNode at h
    split at h
    · exact absurd h (by simp)
    · split at h
      · exact List.get?_mem h
      · rcases hl : mesh.networkNodes with _ | ⟨a, l⟩
        · rw [hl] at h
          simp at h
        · rw [hl] at h
          simp only [Option.some_inj] at h
          rw [← h]
          exact (foldl_minLoad a l).1
      · rcases hl : mesh.networkNodes with _ | ⟨a, l⟩
        · rw [hl] at h
          simp [List.head?] at h
        · rw [hl] at h
          simp only [List.head?, Option.some_inj] at h
          rw [← h]
          exact List.mem_cons_self a l
  · intro hs n h m hm
    unfold AgentMesh.selectNode at h
    split at h
    · exact absurd h (by simp)
    · split at h
      · rename_i heq
        rw [hs] at heq
        exact absurd heq (by decide)
      · rcases hl : mesh.networkNodes with _ | ⟨a, l⟩
        · rw [hl] at h
          simp at h
        · rw [hl] at h
          simp only [Option.some_inj] at h
          rw [hl] at hm
          rw [← h]
          exact (foldl_minLoad a l).2 m hm
      · rename_i hne1 hne2
        exact absurd hs (by simpa using hne2)
  · intro h1 h2
    unfold AgentMesh.selectNode
    split
    · rename_i hlen
      rw [List.length_eq_zero.mp hlen]
      rfl
    · split
      · rename_i hs
        exact absurd hs h1
      · rename_i hs
        exact absurd hs h2
      · rfl
  · intro hs hrand
    unfold AgentMesh.selectNode
    rw [hs]
    have hlen : mesh.networkNodes.length ≠ 0 := by omega
    rw [if_neg hlen, Nat.mod_eq_of_lt hrand]
    rfl
  · intro h
    unfold AgentMesh.routeTask AgentMesh.selectNode
    rw [h]
    rfl
  · intro h
    unfold AgentMesh.selectNode
    have hpos : 0 < mesh.networkNodes.length := List.length_pos.mpr h
    have hlen : mesh.networkNodes.length ≠ 0 := by omega
    rw [if_neg hlen]
    split
    · have hmod : rand % mesh.networkNodes.length <
          mesh.networkNodes.length := Nat.mod_lt _ hpos
      intro hnone
      rw [List.get?_eq_none] at hnone
      omega
    · rcases hl : mesh.networkNodes with _ | ⟨a, l⟩
      · exact absurd hl h
      · simp
    · rcases hl : mesh.networkNodes with _ | ⟨a, l⟩
      · exact absurd hl h
      · simp [List.head?]

/-- A configured node that is not available. -/
def c6Node : AgentNode :=
  { id := "n1", endpoint := "http://n1", load := 50, available := false }

/-- C6 counterexample to the claim as stated: under the round-robin
policy a mesh whose only node is unavailable still selects that node, so
the selected node is not always one of the available nodes. -/
theorem C6_unavailable_selected_counterexample :
    AgentMesh.selectNode
      { networkNodes := [c6Node], routingStrategy := "round-robin" } 0 =
      some c6Node ∧
    c6Node.available = false := by
  exact ⟨rfl, rfl⟩

/-! ### Claim C4 -/

/-- C4 (corrected).  `PaymentVerifier.verify` never raises: every outcome,
including a transport/ledger-access fault while fetching the receipt, is
returned as a structured result, a fault becoming an invalid receipt
whose reason is the error message (the `try`/`catch` around the whole
body converts it); and every invalid receipt carries a reason.  The
claim's assertion that transport faults propagate as raised errors is
what the amendment drops. -/
theorem C4_verify_never_raises
    (fetchResult : Except String (Option LedgerReceipt)) (now : Int)
    (o : VerifyOptions) :
    (∃ w, PaymentVerifier.verify fetchResult now o = .ok w) ∧
    (∀ e, fetchResult = .error e →
      PaymentVerifier.verify fetchResult now o =
        .ok { valid := false, reason := some e, txHash := some o.txHash }) ∧
    (∀ w, PaymentVerifier.verify fetchResult now o = .ok w →
      w.valid = false → w.reason ≠ none) := by
  refine ⟨?_, ?_, ?_⟩
  · match fetchResult with
    | .error e => exact ⟨_, rfl⟩
    | .ok none => exact ⟨_, rfl⟩
    | .ok (some receipt) =>
        simp only [PaymentVerifier.verify]
        by_cases h1 : receipt.amount = o.expectedAmount <;>
          by_cases h2 : receipt.asset = o.expectedAsset <;>
            by_cases h3 : receipt.status = "confirmed" <;>
              by_cases h4 : expiryFailed receipt.expiresAt now <;>
                simp [h1, h2, h3, h4]
  · intro e he
    subst he
    rfl
  · intro w hw hvalid
    match fetchResult with
    | .error e =>
        cases hw
        simp
    | .ok none =>
        cases hw
        simp
    | .ok (some receipt) =>
        revert hw
        simp only [PaymentVerifier.verify]
        by_cases h1 : receipt.amount = o.expectedAmount <;>
          by_cases h2 : receipt.asset = o.expectedAsset <;>
            by_cases h3 : receipt.status = "confirmed" <;>
              by_cases h4 : expiryFailed receipt.expiresAt now <;>
                simp [h1, h2, h3, h4] <;> intro hw <;> subst hw <;> simp_all

/-- C4 counterexample to the claim as stated: a rejected ledger fetch
("ledger unreachable") does not surface as a raised error — `verify`
resolves with an invalid receipt carrying that message as its reason. -/
theorem C4_transport_fault_swallowed :
    PaymentVerifier.verify (.error "ledger unreachable") 1000
      { txHash := "0xabc", expectedAmount := "0.5",
        expectedAsset := "USDC" } =
    .ok { valid := false, reason := some "ledger unreachable",
          txHash := some "0xabc" } ∧
    ∀ e : String,
      PaymentVerifier.verify (.error "ledger unreachable") 1000
        { txHash := "0xabc", expectedAmount := "0.5",
          expectedAsset := "USDC" } ≠ .error e := by
  exact ⟨rfl, fun e h => Except.noConfusion h⟩

/-! ### Claim C8 -/

/-- C8 (confirmed).  In `requestRenderService` the agent-notification
call happens only after the confirmation wait resolved with a receipt
whose status is confirmed: a rejected wait propagates its error and a
receipt with any other status fails with the payment-confirmation error,
and on neither path is the notify call made; conversely, whenever the
notify call was made, the wait had resolved with a confirmed receipt. -/
theorem C8_no_notify_without_confirm (env : OrchEnv) :
    (∀ tx e, env.pay = .ok tx → env.wait = .error e →
      TaskOrchestrator.requestRenderService env = (.error e, false)) ∧
    (∀ tx r, env.pay = .ok tx → env.wait = .ok r →
      r.status ≠ "confirmed" →
      TaskOrchestrator.requestRenderService env =
        (.error "Payment confirmation failed", false)) ∧
    ((TaskOrchestrator.requestRenderService env).2 = true →
      ∃ r, env.wait = .ok r ∧ r.status = "confirmed") := by
  refine ⟨?_, ?_, ?_⟩
  · intro tx e hp hw
    simp [TaskOrchestrator.requestRenderService, hp, hw]
  · intro tx r hp hw hs
    simp [TaskOrchestrator.requestRenderService, hp, hw, hs]
  · intro h
    unfold TaskOrchestrator.requestRenderService at h
    rcases hp : env.pay with e | tx
    · rw [hp] at h
      simp at h
    · rw [hp] at h
      rcases hw : env.wait with e | r
      · rw [hw] at h
        simp at h
      · rw [hw] at h
        by_cases hs : r.status = "confirmed"
        · exact ⟨r, rfl, hs⟩
        · simp [hs] at h

/-! ### Claim C9 -/

/-- C9 (confirmed).  `generateAuditSummary` applied to the empty proof
list returns, rather than raising (the embedding is a total function),
zero transactions, a zero total amount, empty per-asset and per-service
key sets, and the empty seed time range — start still at Infinity (`⊤`)
and end at 0, so the range's start lies strictly after its end. -/
theorem C9_empty_audit_summary :
    ProofEngine.generateAuditSummary [] =
      { totalTransactions := 0, totalAmount := some 0, assets := [],
        services := [], timeStart := ⊤, timeEnd := 0 } ∧
    ((ProofEngine.generateAuditSummary []).timeEnd : WithTop Int) <
      (ProofEngine.generateAuditSummary []).timeStart := by
  constructor
  · rfl
  · show ((0 : Int) : WithTop Int) < ⊤
    exact WithTop.coe_lt_top 0

/-! ### Claim C10 -/

/-- The polling loop returns the stamped first qualifying receipt: if no
poll before the k-th (relative to the loop's current index) qualifies and
the k-th yields a receipt meeting the confirmation threshold within the
window, the loop resolves with that receipt spread over the status
stamp. -/
theorem waitLoop_first_qualifying (polls : Nat → Option WalletReceipt)
    (need : Int) (fuel : Nat) :
    ∀ (i k : Nat) (r : WalletReceipt), k < fuel →
      polls (i + k) = some r →
      AgentWallet.confReached r.confirmations need = true →
      (∀ j, j < k → ∀ s, polls (i + j) = some s →
        AgentWallet.confReached s.confirmations need = false) →
      AgentWallet.waitLoop polls need fuel i =
        .ok (AgentWallet.stampReceipt r) := by
  induction fuel with
  | zero => intro i k r hk; omega
  | succ fuel ih =>
      intro i k r hk hfind hqual hbefore
      match hki : k with
      | 0 =>
          rw [Nat.add_zero] at hfind
          unfold AgentWallet.waitLoop
          rw [hfind]
          simp [hqual]
      | k2 + 1 =>
          have h0 : ∀ s, polls i = some s →
              AgentWallet.confReached s.confirmations need = false := by
            intro s hs
            have := hbefore 0 (by omega) s (by simpa using hs)
            exact this
          unfold AgentWallet.waitLoop
          rcases hp : polls i with _ | s
          · apply ih (i + 1) k2 r (by omega)
            · rw [Nat.add_right_comm]
              exact hfind
            · exact hqual
            · intro j hj s2 hs2
              apply hbefore (j + 1) (by omega) s2
              rw [Nat.add_right_comm] at hs2
              exact hs2
          · simp only [h0 s hp, Bool.false_eq_true, if_false]
            apply ih (i + 1) k2 r (by omega)
            · rw [Nat.add_right_comm]
              exact hfind
            · exact hqual
            · intro j hj s2 hs2
              apply hbefore (j + 1) (by omega) s2
              rw [Nat.add_right_comm] at hs2
              exact hs2

/-- C10 (confirmed).  When the k-th poll is the first to reach the
requested confirmation count (within the timeout window),
`waitForConfirmation` resolves with that ledger receipt's own fields
spread over the `status: 'confirmed'` stamp: `hash`, `confirmations` and
`blockNumber` pass through unchanged, a `status` the ledger receipt
itself carries wins over the stamp (so the result's status need not be
confirmed), and only a receipt with no status field yields the stamped
`confirmed`. -/
theorem C10_wait_status_passthrough (polls : Nat → Option WalletReceipt)
    (options : WaitOptions) (k : Nat) (r : WalletReceipt)
    (hk : k < AgentWallet.fuelFor (jsOrInt options.timeout 120000))
    (hfind : polls k = some r)
    (hqual : AgentWallet.confReached r.confirmations
      (jsOrInt options.confirmations 1) = true)
    (hbefore : ∀ j, j < k → ∀ s, polls j = some s →
      AgentWallet.confReached s.confirmations
        (jsOrInt options.confirmations 1) = false) :
    AgentWallet.waitForConfirmation polls options =
      .ok (AgentWallet.stampReceipt r) ∧
    (AgentWallet.stampReceipt r).hash = r.hash ∧
    (AgentWallet.stampReceipt r).confirmations = r.confirmations ∧
    (AgentWallet.stampReceipt r).blockNumber = r.blockNumber ∧
    (∀ s, r.status = some s → (AgentWallet.stampReceipt r).status = s) ∧
    (r.status = none →
      (AgentWallet.stampReceipt r).status = "confirmed") := by
  refine ⟨?_, rfl, rfl, rfl, ?_, ?_⟩
  · unfold AgentWallet.waitForConfirmation
    apply waitLoop_first_qualifying polls _ _ 0 k r hk
    · simpa using hfind
    · exact hqual
    · intro j hj s hs
      exact hbefore j hj s (by simpa using hs)
  · intro s hs
    simp [AgentWallet.stampReceipt, hs]
  · intro hs
    simp [AgentWallet.stampReceipt, hs]

/-- The poll trace for the C10 witness: the very first poll returns a
receipt that already has 2 confirmations but carries its own status
field, whose value is not confirmed. -/
def c10Polls : Nat → Option WalletReceipt := fun _ =>
  some { hash := some "0x1", confirmations := some 2,
         blockNumber := some 7, status := some "pending" }

/-- C10 witness: at the concrete trace `c10Polls` with default options,
the wait resolves with the ledger receipt's fields and the receipt's own
`pending` status surviving over the confirmed stamp. -/
theorem C10_wait_status_passthrough_witness :
    AgentWallet.waitForConfirmation c10Polls {} =
      .ok (AgentWallet.stampReceipt
        { hash := some "0x1", confirmations := some 2,
          blockNumber := some 7, status := some "pending" }) ∧
    (AgentWallet.stampReceipt
      { hash := some "0x1", confirmations := some 2,
        blockNumber := some 7,
        status := some "pending" }).status = "pending" := by
  have h := C10_wait_status_passthrough c10Polls {} 0
    { hash := some "0x1", confirmations := some 2,
      blockNumber := some 7, status := some "pending" }
    (by decide) rfl (by decide)
    (fun j hj => absurd hj (Nat.not_lt_zero j))
  exact ⟨h.1, h.2.2.2.2.1 "pending" rfl⟩

/-! ### Claim C5

The round-trip and tamper-detection law is proved for every engine whose
digest-of-canonical-serialization map is injective, the hypothesis the
claim itself states.  To discharge that hypothesis at a concrete engine
in the witness, an injective serialization is constructed explicitly:
`ProofData` is encoded into `ℕ` by pairing, and the number is rendered in
binary. -/

/-- Unambiguous encoding of a list of naturals into one natural. -/
def encNatList : List Nat → Nat
  | [] => 0
  | x :: xs => Nat.pair x (encNatList xs) + 1

/-- Unambiguous encoding of a string into a natural. -/
def encString (s : String) : Nat :=
  encNatList (s.data.map Char.toNat)

/-- Unambiguous encoding of an integer into a natural. -/
def encInt : Int → Nat
  | .ofNat n => 2 * n
  | .negSucc n => 2 * n + 1

/-- Unambiguous encoding of an optional string into a natural. -/
def encOptStr : Option String → Nat
  | none => 0
  | some s => encString s + 1

/-- Unambiguous encoding of a proof-data snapshot into a natural. -/
def encProofData (d : ProofData) : Nat :=
  Nat.pair (encString d.txHash) (Nat.pair (encInt d.timestamp)
    (Nat.pair (encString d.amount) (Nat.pair (encString d.asset)
      (Nat.pair (encString d.from_) (Nat.pair (encString d.to_)
        (Nat.pair (encString d.metadata) (encOptStr d.service)))))))

/-- Little-endian binary digits of `n`, by fuel (the fuel `n` itself is
always enough, as the value halves each step). -/
def binAux : Nat → Nat → List Char
  | 0, _ => []
  | fuel + 1, n =>
      if n = 0 then []
      else (if n % 2 = 1 then '1' else '0') :: binAux fuel (n / 2)

/-- The value a little-endian binary digit list denotes. -/
def ofBin : List Char → Nat :=
  List.foldr (fun c acc => 2 * acc + (if c = '1' then 1 else 0)) 0

/-- A number renders through `binAux` faithfully: reading the digits back
recovers it. -/
theorem ofBin_binAux : ∀ fuel n, n ≤ fuel → ofBin (binAux fuel n) = n := by
  intro fuel
  induction fuel with
  | zero =>
      intro n h
      interval_cases n
      rfl
  | succ fuel ih =>
      intro n h
      unfold binAux
      by_cases h0 : n = 0
      · simp [h0, ofBin]
      · rw [if_neg h0]
        have hrec : ofBin (binAux fuel (n / 2)) = n / 2 :=
          ih (n / 2) (by omega)
        by_cases h2 : n % 2 = 1
        · simp only [h2, if_true, ofBin, List.foldr] at hrec ⊢
          rw [hrec]
          omega
        · simp only [h2, if_false, ofBin, List.foldr] at hrec ⊢
          rw [hrec]
          simp
          omega

/-- Binary rendering of a natural as a string. -/
def binStr (n : Nat) : String :=
  String.mk (binAux n n)

theorem binStr_injective : Function.Injective binStr := by
  intro a b h
  have hd : binAux a a = binAux b b := congrArg String.data h
  have ha := ofBin_binAux a a le_rfl
  have hb := ofBin_binAux b b le_rfl
  rw [hd, hb] at ha
  exact ha.symm

theorem encNatList_injective : Function.Injective encNatList := by
  intro a
  induction a with
  | nil =>
      intro b h
      cases b with
      | nil => rfl
      | cons y ys =>
          unfold encNatList at h
          omega
  | cons x xs ih =>
      intro b h
      cases b with
      | nil =>
          unfold encNatList at h
          omega
      | cons y ys =>
          unfold encNatList at h
          have h2 : Nat.pair x (encNatList xs) =
              Nat.pair y (encNatList ys) := by omega
          rw [Nat.pair_eq_pair] at h2
          rw [h2.1, ih h2.2]

theorem charToNat_injective : Function.Injective Char.toNat := by
  intro a b h
  rw [← Char.ofNat_toNat a, ← Char.ofNat_toNat b, h]

theorem stringData_injective : Function.Injective String.data := by
  intro a b h
  cases a
  cases b
  exact congrArg String.mk h

theorem encString_injective : Function.Injective encString := by
  intro a b h
  unfold encString at h
  exact stringData_injective
    (List.map_injective_iff.mpr charToNat_injective (encNatList_injective h))

theorem encInt_injective : Function.Injective encInt := by
  intro a b h
  cases a with
  | ofNat n =>
      cases b with
      | ofNat m =>
          simp only [encInt] at h
          have : n = m := by omega
          rw [this]
      | negSucc m =>
          simp only [encInt] at h
          omega
  | negSucc n =>
      cases b with
      | ofNat m =>
          simp only [encInt] at h
          omega
      | negSucc m =>
          simp only [encInt] at h
          have : n = m := by omega
          rw [this]

theorem encOptStr_injective : Function.Injective encOptStr := by
  intro a b h
  cases a with
  | none =>
      cases b with
      | none => rfl
      | some t =>
          simp only [encOptStr] at h
          omega
  | some s =>
      cases b with
      | none =>
          simp only [encOptStr] at h
          omega
      | some t =>
          simp only [encOptStr] at h
          have : s = t := encString_injective (by omega)
          rw [this]

theorem encProofData_injective : Function.Injective encProofData := by
  intro a b h
  unfold encProofData at h
  simp only [Nat.pair_eq_pair] at h
  obtain ⟨h1, h2, h3, h4, h5, h6, h7, h8⟩ := h
  cases a
  cases b
  simp only [ProofData.mk.injEq]
  exact ⟨encString_injective h1, encInt_injective h2,
    encString_injective h3, encString_injective h4,
    encString_injective h5, encString_injective h6,
    encString_injective h7, encOptStr_injective h8⟩

/-- An injective canonical serialization of proof data. -/
def c5Stringify (d : ProofData) : String :=
  binStr (encProofData d)

theorem c5Stringify_injective : Function.Injective c5Stringify := by
  intro a b h
  exact encProofData_injective (binStr_injective h)

/-- C5 (confirmed).  For every engine configured with the 256-bit hash
algorithm: a generated proof verifies (also when the transaction carries
a signer, in which case the bundled signature is checked by the
signature stub), and under the claim's hypothesis — the digest over the
canonical serialization is injective — replacing the proof's data
snapshot by any different snapshot makes `verifyProof` return false. -/
theorem C5_proof_roundtrip_and_tamper (e : ProofEngine)
    (tx : PTransaction) (now : Int) (p : TxProof)
    (halg : e.algorithm = "sha256")
    (hgen : ProofEngine.generateProof e tx now = .ok p) :
    ProofEngine.verifyProof e p = .ok true ∧
    (Function.Injective (fun d => e.sha256Hex (e.stringify d)) →
      ∀ d, d ≠ p.data →
        ProofEngine.verifyProof e { p with data := d } = .ok false) := by
  have hh : ∀ d : ProofData,
      ProofEngine.hashProof e d = .ok (e.sha256Hex (e.stringify d)) := by
    intro d
    simp [ProofEngine.hashProof, halg]
  rcases hsig : tx.signer with _ | sk
  · simp only [ProofEngine.generateProof, hsig, hh,
      Except.ok.injEq] at hgen
    subst hgen
    constructor
    · simp [ProofEngine.verifyProof, hh]
    · intro hinj d hd
      have hne := hinj.ne hd
      simp only [ne_eq] at hne
      simp [ProofEngine.verifyProof, hh]
      intro hc
      exact absurd hc hne
  · simp only [ProofEngine.generateProof, ProofEngine.signProof, hsig, hh,
      Except.map, Except.ok.injEq] at hgen
    subst hgen
    constructor
    · simp [ProofEngine.verifyProof, hh, ProofEngine.verifySignature]
    · intro hinj d hd
      have hne := hinj.ne hd
      simp only [ne_eq] at hne
      simp [ProofEngine.verifyProof, hh, ProofEngine.verifySignature]
      intro hc
      exact absurd hc hne

/-- The concrete engine for the C5 witness: algorithm sha256, the
injective serialization above, and the identity as digest (injective on
serializations). -/
def c5Engine : ProofEngine :=
  { algorithm := "sha256", stringify := c5Stringify, sha256Hex := id }

/-- A transaction carrying a signer. -/
def c5Tx : PTransaction :=
  { hash := "", timestamp := 0, amount := "", asset := "", from_ := "",
    to_ := "", metadata := "", signer := some "key" }

/-- The snapshot `generateProof` builds from `c5Tx`. -/
def c5Data : ProofData :=
  { txHash := "", timestamp := 0, amount := "", asset := "", from_ := "",
    to_ := "", metadata := "" }

/-- The proof `generateProof` emits for `c5Tx` at issuance time 9. -/
def c5Proof : TxProof :=
  { hash := c5Stringify c5Data,
    signature := some ("sig_" ++ (c5Stringify c5Data).take 16),
    algorithm := "sha256", timestamp := 9, data := c5Data }

/-- The tampered snapshot: the timestamp field mutated. -/
def c5Tampered : ProofData :=
  { txHash := "", timestamp := 1, amount := "", asset := "", from_ := "",
    to_ := "", metadata := "" }

theorem c5Engine_digest_injective :
    Function.Injective
      (fun d => c5Engine.sha256Hex (c5Engine.stringify d)) :=
  c5Stringify_injective

/-- C5 witness: at the concrete engine and signed transaction, the
generated proof verifies, and the proof with a mutated data snapshot
does not. -/
theorem C5_proof_roundtrip_and_tamper_witness :
    ProofEngine.verifyProof c5Engine c5Proof = .ok true ∧
    ProofEngine.verifyProof c5Engine { c5Proof with data := c5Tampered } =
      .ok false := by
  have h := C5_proof_roundtrip_and_tamper c5Engine c5Tx 9 c5Proof rfl rfl
  exact ⟨h.1, h.2 c5Engine_digest_injective c5Tampered (by decide)⟩

end X402
